import Mathlib

/-!
# Verification of the eidos rolling-logger core

Shallow embedding of the rotation engine of the `eidos` log-rotation package
(files `eidos.go`, `internal.go`, `chown_linux.go` of the repository).

Go code performing file-system I/O is embedded as explicit state passing over a
`Sys` record (the mutable fields of `*Logger` plus bookkeeping of which physical
file is bound to the active path), with the outcome of each file-system
primitive (stat / rename / create / close / short write) supplied by an oracle
record `FSO`.  Machine integers (`int64`) are modelled as `Int`; the arithmetic
performed by the code on sizes cannot overflow along the executions considered
(sizes are bounded by the configured maximum), so no wrap-around is applied
there.  Where Go's `time` package documents saturation (`Time.Sub` clamps to
the `int64` range of `Duration`) the clamp is modelled explicitly.

The embedding is single-threaded: every public entry point of the Go code takes
the one mutex before touching logger state, so its sequential body is what is
modelled; goroutines spawned fire-and-forget (`postRotation`) are recorded in
the state (`Sys.spawned`) rather than executed.
-/

/-- `megabyte` from internal.go: `megabyte = 1024 * 1024`. -/
def megabyte : Int := 1024 * 1024

/-- `defaultMaxSize` from internal.go: default maximum size of the log file in
megabytes, `defaultMaxSize = 100`. -/
def defaultMaxSize : Int := 100

/-- Nanoseconds per second (Go `time.Second`). -/
def nsPerSecond : Int := 1000000000

/-- `defaultMaxPeriod` from internal.go: `7 * 24 * time.Hour`, in nanoseconds. -/
def defaultMaxPeriod : Int := 7 * 24 * 3600 * nsPerSecond

/-- Error values surfaced by the embedded Go functions.  Each constructor
names the `fmt.Errorf`/underlying error returned on the corresponding failing
path of the source. -/
inductive GoErr where
  /-- Write: "write request size %d exceed max file size %d" -/
  | writeTooLarge
  /-- openExistingOrNewFile: "failed to get the log file info-%v" -/
  | statFail
  /-- openNewFile: "can't rename log file: %s" -/
  | renameFail
  /-- openNewFile: error propagated from `chown` -/
  | chownFail
  /-- openNewFile: "can't open new logfile: %s" -/
  | createFail
  /-- close: error returned by `l.file.Close()` -/
  | closeFail
  /-- Write: error returned by `l.file.Write(p)` -/
  | writeFail
  /-- compressLogFile: "failed to open log file: %v" -/
  | openSrcFail
  /-- compressLogFile: "failed to stat log file: %v" -/
  | statSrcFail
  /-- compressLogFile: "failed to chown compressed log file: %v" -/
  | chownDstFail
  /-- compressLogFile: "failed to open compressed log file: %v" -/
  | openDstFail
  /-- compressLogFile: error returned by `gzip.NewWriterLevel` -/
  | gzipInvalidLevel
  /-- compressLogFile: error returned by `io.Copy` -/
  | copyFail
  /-- compressLogFile: error returned by `gzWriter.Close()` -/
  | gzCloseFail
  /-- compressLogFile: error returned by `file.Close()` -/
  | srcCloseFail
  /-- compressLogFile: error returned by `os.Remove(sourceFile)` -/
  | removeSrcFail
  /-- New: error returned by `os.MkdirAll` -/
  | mkdirFail
deriving DecidableEq, Repr

/-- Oracle for the file-system primitives touched by one `Write`/`Rotate`/
`Close` call.  Each field is the outcome Go's runtime would report for the
corresponding primitive during that call; the state of the file system is
taken to be stable for the duration of the locked call. -/
structure FSO where
  /-- `os.Stat(l.Filename)`: the active path currently has a file. -/
  statActiveExists : Bool
  /-- `os.Stat(l.Filename)` failed with an error other than not-exist. -/
  statErr : Bool
  /-- size reported by `fileInfo.Size()` for an existing active file. -/
  existingSize : Int
  /-- `os.OpenFile(fileName, os.O_APPEND|os.O_WRONLY, 0644)` succeeded. -/
  openAppendOk : Bool
  /-- `os.Rename(fileName, backupFileName)` succeeded. -/
  renameOk : Bool
  /-- `chown(fileName, fileInfo)` succeeded. -/
  chownOk : Bool
  /-- `os.OpenFile(fileName, os.O_CREATE|os.O_WRONLY|os.O_TRUNC, fileMode)` succeeded. -/
  createOk : Bool
  /-- `l.file.Close()` succeeded. -/
  closeOk : Bool
  /-- `n` returned by `l.file.Write(p)`. -/
  writeN : Int
  /-- `l.file.Write(p)` returned a non-nil error. -/
  writeErr : Bool
deriving DecidableEq, Repr

/-- The `io.Writer` contract of `os.File.Write` for a buffer of length `plen`:
it writes at most the whole buffer, a nonnegative count, and reports an error
whenever the count falls short (`Write must return a non-nil error if it
returns n < len(p)`). -/
def FSO.validFor (o : FSO) (plen : Int) : Prop :=
  0 ≤ o.writeN ∧ o.writeN ≤ plen ∧ (o.writeErr = false → o.writeN = plen) ∧
    0 ≤ o.existingSize

/-- State of one `*Logger` together with the bookkeeping needed to talk about
which physical file receives bytes.  `sizeMB`, `compress`, `level` are the
fields of `l.RotationOption` that the rotation engine reads (`Size`,
`Compress`, `CompressionLevel`); `size` and `file` are the private fields of
`*Logger`.  Physical files are numbered: `file = some i` means the logger holds
an open handle onto physical file `i`; `nextId` is the next unused number, so a
file opened or created later in the execution always gets a fresh number.
`spawned` records the `(compress, compressionLevel)` argument pairs of every
`go postRotation(...)` statement executed so far. -/
structure Sys where
  /-- `l.RotationOption.Size` (megabytes). -/
  sizeMB : Int
  /-- `l.RotationOption.Compress`. -/
  compress : Bool
  /-- `l.RotationOption.CompressionLevel`. -/
  level : Int
  /-- `l.size`. -/
  size : Int
  /-- `l.file` (`none` = nil pointer, `some i` = handle on physical file `i`). -/
  file : Option Nat
  /-- next unused physical-file number. -/
  nextId : Nat
  /-- arguments of the `postRotation` goroutines spawned so far. -/
  spawned : List (Bool × Int)
deriving DecidableEq, Repr

/-- `(*Logger).max` from internal.go: `int64(l.RotationOption.Size) * int64(megabyte)`. -/
def Sys.max (s : Sys) : Int := s.sizeMB * megabyte

/-- `(*Logger).close` from internal.go: if no file is open return nil,
otherwise close the file, nil the pointer, and return the close error. -/
def Sys.close (o : FSO) (s : Sys) : Sys × Option GoErr :=
  match s.file with
  | none => (s, none)
  | some _ =>
      ({ s with file := none }, if o.closeOk then none else some .closeFail)

/-- `(*Logger).openNewFile` from internal.go: stat the active path; if a file
is there, rename it to a backup name, chown, and spawn
`go postRotation(backupFileName, l.RotationOption.Compress,
l.RotationOption.CompressionLevel)`; then create a fresh file at the active
path and adopt it with size 0.  Failures of rename, chown or create return the
error without assigning `l.file`/`l.size`. -/
def Sys.openNewFile (o : FSO) (s : Sys) : Sys × Option GoErr :=
  if o.statActiveExists && !o.statErr then
    if !o.renameOk then (s, some .renameFail)
    else if !o.chownOk then (s, some .chownFail)
    else if !o.createOk then
      ({ s with spawned := s.spawned ++ [(s.compress, s.level)] }, some .createFail)
    else
      ({ s with spawned := s.spawned ++ [(s.compress, s.level)]
                file := some s.nextId
                nextId := s.nextId + 1
                size := 0 }, none)
  else
    if !o.createOk then (s, some .createFail)
    else ({ s with file := some s.nextId
                   nextId := s.nextId + 1
                   size := 0 }, none)

/-- `(*Logger).openExistingOrNewFile` from internal.go: stat the active path;
not-exist falls through to `openNewFile`; other stat errors propagate; an
existing file is opened for append (adopting its on-disk size), with any open
failure degrading to `openNewFile`. -/
def Sys.openExistingOrNewFile (o : FSO) (s : Sys) : Sys × Option GoErr :=
  if !o.statActiveExists then s.openNewFile o
  else if o.statErr then (s, some .statFail)
  else if !o.openAppendOk then s.openNewFile o
  else ({ s with file := some s.nextId
                 nextId := s.nextId + 1
                 size := o.existingSize }, none)

/-- `(*Logger).rotate` from internal.go: close the current file, then open a
new one; the first failure aborts and is returned. -/
def Sys.rotate (o : FSO) (s : Sys) : Sys × Option GoErr :=
  let (s1, e1) := s.close o
  match e1 with
  | some e => (s1, some e)
  | none => s1.openNewFile o

/-- Result of one `(*Logger).Write` call: post-state, the returned `(n, err)`
pair, and the physical file the bytes were handed to (`none` when the call
returned before reaching `l.file.Write`). -/
structure WriteRes where
  sys : Sys
  n : Int
  err : Option GoErr
  target : Option Nat
deriving DecidableEq, Repr

/-- Step 4 of `(*Logger).Write` (eidos.go), after the rotation decision: a
rotation failure is returned as `(0, err)`; otherwise `l.file.Write(p)` runs
and `l.size += int64(n)` accounts the bytes actually written. -/
def writeStep (o : FSO) (r : Sys × Option GoErr) : WriteRes :=
  match r with
  | (s2, some e) => ⟨s2, 0, some e, none⟩
  | (s2, none) =>
      ⟨{ s2 with size := s2.size + o.writeN }, o.writeN,
        if o.writeErr then some .writeFail else none, s2.file⟩

/-- Steps 3–4 of `(*Logger).Write` (eidos.go), entered once the file pointer is
guaranteed non-nil by step 2: an open failure is returned as `(0, err)`;
otherwise rotate if `l.size+writeRequestLength > l.max()`, then perform the
file write. -/
def writeOpened (o : FSO) (plen : Int) (r : Sys × Option GoErr) : WriteRes :=
  match r with
  | (s1, some e) => ⟨s1, 0, some e, none⟩
  | (s1, none) =>
      writeStep o (if s1.size + plen > s1.max then s1.rotate o else (s1, none))

/-- `(*Logger).Write` from eidos.go (mutex elided; the body runs atomically):
reject a buffer longer than `l.max()`, open the file if `l.file == nil`,
rotate on prospective overflow, then write and account the bytes written. -/
def Sys.write (o : FSO) (plen : Int) (s : Sys) : WriteRes :=
  if plen > s.max then ⟨s, 0, some .writeTooLarge, none⟩
  else writeOpened o plen
    (match s.file with
     | none => s.openExistingOrNewFile o
     | some _ => (s, none))

/-- `(*Logger).Close` from eidos.go: take the mutex and call `l.close()`. -/
def Sys.Close (o : FSO) (s : Sys) : Sys × Option GoErr := s.close o

/-- `(*Logger).Rotate` from eidos.go: take the mutex and call `l.rotate()`. -/
def Sys.Rotate (o : FSO) (s : Sys) : Sys × Option GoErr := s.rotate o

/-- Run a sequence of `Write` calls, each with its own oracle and buffer
length, threading the state. -/
def execWrites (s : Sys) : List (FSO × Int) → Sys
  | [] => s
  | (o, plen) :: rest => execWrites (s.write o plen).sys rest

/-- Well-formedness of the file numbering: the open handle (if any) is on a
file numbered below `nextId`. -/
def Sys.wf (s : Sys) : Prop := ∀ i, s.file = some i → i < s.nextId

/-! ## Constructor: `New` (eidos.go) -/

/-- The `Options` struct (object.go / README): the fields read by the
rotation engine.  `Period` is a `time.Duration` in nanoseconds. -/
structure Options where
  Size : Int
  Period : Int
  RetentionPeriod : Int
  Compress : Bool
  CompressionLevel : Int
  LocalTime : Bool
deriving DecidableEq, Repr

/-- The public part of the `Logger` struct as initialized by `New`. -/
structure Logger where
  Filename : String
  RotationOption : Options
deriving DecidableEq, Repr

/-- The compression-level validation switch of `New` (eidos.go lines 43–49):
levels 0, 1 and 9 are kept, anything else becomes 0. -/
def normalizeLevel (lvl : Int) : Int :=
  if lvl = 0 ∨ lvl = 1 ∨ lvl = 9 then lvl else 0

/-- `New` from eidos.go (mutex-free constructor).  The body, in source order:
default the callback (not modelled: the callback value is opaque), default
`Size` to `defaultMaxSize` when 0, default `Period` to `defaultMaxPeriod` when
0, default an empty filename to
`filepath.Join(os.TempDir(), "eidos_logs", filepath.Base(os.Args[0])+"-eidos.log")`
(the external values `os.TempDir()` and `filepath.Base(os.Args[0])` are passed
in as `tempDir` and `arg0`), validate the compression level, then ensure the
log directory exists (`os.Stat`/`os.MkdirAll`, outcomes `dirExists`/`mkdirOk`),
returning the mkdir error on failure.  The ticker daemons it starts are
time-driven goroutines and are not part of the sequential state. -/
def New (filename : String) (options : Options) (tempDir arg0 : String)
    (dirExists mkdirOk : Bool) : Except GoErr Logger :=
  let options := if options.Size = 0 then { options with Size := defaultMaxSize } else options
  let options := if options.Period = 0 then { options with Period := defaultMaxPeriod } else options
  let filename := if filename = "" then tempDir ++ "/eidos_logs/" ++ arg0 ++ "-eidos.log" else filename
  let options := { options with CompressionLevel := normalizeLevel options.CompressionLevel }
  if !dirExists && !mkdirOk then .error .mkdirFail
  else .ok { Filename := filename, RotationOption := options }

/-- The rotation-engine state of a freshly constructed logger: no open file,
`l.size` zero, no goroutines spawned yet. -/
def sysOfLogger (l : Logger) : Sys :=
  { sizeMB := l.RotationOption.Size
    compress := l.RotationOption.Compress
    level := l.RotationOption.CompressionLevel
    size := 0
    file := none
    nextId := 0
    spawned := [] }

/-! ## Compression pipeline: `postRotation` / `compressLogFile` (internal.go) -/

/-- Oracle for the file-system primitives touched by one `compressLogFile`
call (plus the `os.Remove` of the deferred cleanup). -/
structure CFSO where
  /-- `os.Open(sourceFile)` succeeded. -/
  openSrcOk : Bool
  /-- `os.Stat(sourceFile)` succeeded. -/
  statSrcOk : Bool
  /-- inside `chown` (chown_linux.go): `os.OpenFile(file, os.O_CREATE|os.O_WRONLY|os.O_TRUNC, info.Mode())` succeeded. -/
  chownCreateOk : Bool
  /-- inside `chown` (chown_linux.go): `os.Chown(...)` succeeded. -/
  chownChownOk : Bool
  /-- `os.OpenFile(destinationFile, os.O_CREATE|os.O_TRUNC|os.O_WRONLY, fileInfo.Mode())` succeeded. -/
  openDstOk : Bool
  /-- `io.Copy(gzWriter, file)` succeeded. -/
  copyOk : Bool
  /-- `gzWriter.Close()` succeeded. -/
  gzCloseOk : Bool
  /-- `file.Close()` succeeded. -/
  srcCloseOk : Bool
  /-- `os.Remove(sourceFile)` succeeded. -/
  removeSrcOk : Bool
deriving DecidableEq, Repr

/-- Validity predicate of a gzip compression level.
Modelled from the Go standard library (an external collaborator of this
repository): `gzip.NewWriterLevel` returns an error exactly when
`level < HuffmanOnly (-2)` or `level > BestCompression (9)`. -/
def gzipLevelValid (level : Int) : Bool := -2 ≤ level && level ≤ 9

/-- Outcome of one `compressLogFile` call, as observable on the file system. -/
structure CompressResult where
  /-- the error returned to `postRotation` (`none` = success). -/
  err : Option GoErr
  /-- the destination (`.gz`) file exists on disk after the call. -/
  dstExists : Bool
  /-- the source (uncompressed backup) file exists on disk after the call. -/
  srcExists : Bool
  /-- the deferred cleanup executed its `os.Remove(destinationFile)`. -/
  cleanupRemovedDst : Bool
deriving DecidableEq, Repr

/-- `compressLogFile` from internal.go (lines 172–229), with `chown` from
chown_linux.go inlined at its call site.  Two Go subtleties are mirrored
faithfully here.  (1) `chown` itself *creates* the destination file
(`os.OpenFile` with `O_CREATE|O_TRUNC`) before calling `os.Chown`, so the
destination exists from that point on, even on a chown failure.  (2) The
cleanup closure deferred at lines 202–207 runs `os.Remove(destinationFile)`
only `if err != nil`, where `err` is the *outer* variable last assigned by
`gzip.NewWriterLevel` at line 196; every later failure (`io.Copy`,
`gzWriter.Close()`, `file.Close()`, `os.Remove(sourceFile)`) binds a fresh
`err` scoped to its own `if` statement, so the outer `err` is still `nil`
whenever the deferred function runs, and the cleanup removal never fires;
failures at or before line 198 return before the cleanup is even deferred.
Hence `cleanupRemovedDst` is `false` on every path. -/
def compressLogFile (level : Int) (o : CFSO) : CompressResult :=
  if !o.openSrcOk then ⟨some .openSrcFail, false, true, false⟩
  else if !o.statSrcOk then ⟨some .statSrcFail, false, true, false⟩
  else if !o.chownCreateOk then ⟨some .chownDstFail, false, true, false⟩
  else if !o.chownChownOk then ⟨some .chownDstFail, true, true, false⟩
  else if !o.openDstOk then ⟨some .openDstFail, true, true, false⟩
  else if !(gzipLevelValid level) then ⟨some .gzipInvalidLevel, true, true, false⟩
  else if !o.copyOk then ⟨some .copyFail, true, true, false⟩
  else if !o.gzCloseOk then ⟨some .gzCloseFail, true, true, false⟩
  else if !o.srcCloseOk then ⟨some .srcCloseFail, true, true, false⟩
  else if !o.removeSrcOk then ⟨some .removeSrcFail, true, true, false⟩
  else ⟨none, true, false, false⟩

/-- The destination name computed by `postRotation` (internal.go lines
151–155): `fmt.Sprintf("%s%s.gz", stem, ext)` where `stem` is the backup name
without its extension — i.e. the backup name with `.gz` appended. -/
def compressedName (backupFileName : String) : String := backupFileName ++ ".gz"

/-- `postRotation` from internal.go (lines 147–169): with compression off the
backup path itself is sent to the callback channel; with compression on,
`compressLogFile` runs and the backup path is sent on failure, the `.gz` path
on success.  Returns the reported path together with the compression
outcome (`none` when compression is disabled). -/
def postRotation (backupFileName : String) (compress : Bool) (level : Int)
    (o : CFSO) : String × Option CompressResult :=
  if compress then
    let r := compressLogFile level o
    (if r.err.isSome then backupFileName else compressedName backupFileName, some r)
  else
    (backupFileName, none)

/-! ## Retention sweep: `cleanUpOldLogs` (internal.go) -/

/-- Saturating `time.Time.Sub`: the mathematical difference of two instants
(nanoseconds), clamped to the `int64` range of `time.Duration` as documented
by the Go standard library. -/
def timeSub (t u : Int) : Int :=
  Max.max (-(2 ^ 63)) (Min.min (2 ^ 63 - 1) (t - u))

/-- Two's-complement wrap-around of `int64` arithmetic. -/
def wrap64 (x : Int) : Int := (x + 2 ^ 63) % 2 ^ 64 - 2 ^ 63

/-- `time.Duration(period) * time.Hour * 24` (internal.go line 264):
`int64` products, left-associated, each wrapping on overflow. -/
def retentionWindow (period : Int) : Int :=
  wrap64 (wrap64 (wrap64 period * (3600 * nsPerSecond)) * 24)

/-- Instants are nanoseconds since Go's zero `time.Time` (January 1, year 1
UTC), the value `time.Parse` returns when it fails. -/
def goZeroTime : Int := 0

/-- The age check of `cleanUpOldLogs` (internal.go lines 260–266) for one
qualifying directory entry.  `parsed` is the result of
`time.Parse(backupTimeFormat, <timestamp slice of the name>)` — the Go
standard library parser is an external collaborator, so its result is a
parameter; on a parse error the returned `time.Time` is the zero value and
the error is discarded (`timeStamp, _ := time.Parse(...)`).  The entry is
removed when `currentTime().Sub(timeStamp.Add(-time.Second*19800))` exceeds
`time.Duration(period)*time.Hour*24`: note the fixed 19800-second (5 h 30 min)
shift applied to the parsed timestamp before the comparison. -/
def cleanupShouldRemove (parsed : Option Int) (now period : Int) : Bool :=
  timeSub now ((parsed.getD goZeroTime) - 19800 * nsPerSecond) > retentionWindow period

/-- The per-entry body of the `cleanUpOldLogs` loop (internal.go lines
251–268).  Names are modelled as character lists (the names involved are
ASCII, so Go's byte indexing agrees with character indexing).  `parseTs`
stands for `time.Parse backupTimeFormat` (external Go standard library).
Directories are skipped; an entry qualifies when its name has the computed
prefix (`strings.HasPrefix`) and suffix (`strings.HasSuffix`) and is not the
active file itself; the timestamp substring is
`f.Name()[len(prefix)+1 : len(f.Name())-len(suffix)]`.  Returns `true`
exactly when the sweep calls `os.Remove` on the entry (removal errors are
discarded by the source). -/
def cleanupEntryRemoved (parseTs : List Char → Option Int)
    (activeName pre suf : List Char) (entryName : List Char) (isDir : Bool)
    (now period : Int) : Bool :=
  if isDir then false
  else if pre.isPrefixOf entryName && suf.isSuffixOf entryName
      && entryName != activeName then
    cleanupShouldRemove
      (parseTs ((entryName.drop (pre.length + 1)).take
        (entryName.length - suf.length - (pre.length + 1)))) now period
  else false

/-! ## Operation sequences and policy bookkeeping -/

/-- The logger value `New` constructs on its success path (the same
normalization chain as in `New`, factored out so that theorems can name the
result). -/
def newLogger (filename : String) (options : Options) (tempDir arg0 : String) : Logger :=
  let options := if options.Size = 0 then { options with Size := defaultMaxSize } else options
  let options := if options.Period = 0 then { options with Period := defaultMaxPeriod } else options
  let filename := if filename = "" then tempDir ++ "/eidos_logs/" ++ arg0 ++ "-eidos.log" else filename
  let options := { options with CompressionLevel := normalizeLevel options.CompressionLevel }
  { Filename := filename, RotationOption := options }

/-- One public operation on the logger (the three mutex-guarded entry
points), with the file-system oracle for that call. -/
inductive LogOp where
  | writeOp (o : FSO) (plen : Int)
  | rotateOp (o : FSO)
  | closeOp (o : FSO)

/-- Run one public operation, keeping the state. -/
def runOp (s : Sys) : LogOp → Sys
  | .writeOp o plen => (s.write o plen).sys
  | .rotateOp o => (s.Rotate o).1
  | .closeOp o => (s.Close o).1

/-- Run a sequence of public operations. -/
def runOps (s : Sys) : List LogOp → Sys
  | [] => s
  | op :: rest => runOps (runOp s op) rest

/-- `s'` is reachable from `s` without touching the rotation policy: the
`RotationOption` fields are unchanged and the only new `postRotation` spawns
carry `s`'s own `Compress`/`CompressionLevel` pair. -/
def PolicyExtends (s s' : Sys) : Prop :=
  s'.sizeMB = s.sizeMB ∧ s'.compress = s.compress ∧ s'.level = s.level ∧
    ∃ t, s'.spawned = s.spawned ++ t ∧ ∀ p ∈ t, p = (s.compress, s.level)

/-! ## Concrete fixtures used by witnesses and counterexamples -/

/-- An oracle on which every file-system primitive succeeds, the active path
is vacant, and `file.Write` writes nothing. -/
def oracleAllOk : FSO :=
  { statActiveExists := false, statErr := false, existingSize := 0,
    openAppendOk := true, renameOk := true, chownOk := true, createOk := true,
    closeOk := true, writeN := 0, writeErr := false }

/-- A logger state with a 1-megabyte threshold holding an open handle on
physical file 0 with 100 bytes accounted. -/
def sysOpen1MB : Sys :=
  { sizeMB := 1, compress := false, level := 0, size := 100, file := some 0,
    nextId := 1, spawned := [] }

/-- An oracle describing a call during which the active path is occupied,
every primitive succeeds, and `file.Write` writes a full 1 MiB buffer. -/
def oracleRotateWrite : FSO :=
  { statActiveExists := true, statErr := false, existingSize := 0,
    openAppendOk := true, renameOk := true, chownOk := true, createOk := true,
    closeOk := true, writeN := 1048576, writeErr := false }

/-- An oracle on which the rename of the occupied active path fails and every
other primitive succeeds. -/
def oracleRenameFails : FSO :=
  { statActiveExists := true, statErr := false, existingSize := 0,
    openAppendOk := true, renameOk := false, chownOk := true, createOk := true,
    closeOk := true, writeN := 0, writeErr := false }

/-- A compression oracle on which every primitive succeeds. -/
def cOracleAllOk : CFSO :=
  { openSrcOk := true, statSrcOk := true, chownCreateOk := true,
    chownChownOk := true, openDstOk := true, copyOk := true, gzCloseOk := true,
    srcCloseOk := true, removeSrcOk := true }

/-- A compression oracle on which `io.Copy` fails and every other primitive
succeeds. -/
def cOracleCopyFails : CFSO :=
  { openSrcOk := true, statSrcOk := true, chownCreateOk := true,
    chownChownOk := true, openDstOk := true, copyOk := false, gzCloseOk := true,
    srcCloseOk := true, removeSrcOk := true }

/-- A concrete "current time": about 63.9 billion seconds after Go's zero
time, i.e. an instant in early 2026. -/
def nowNs : Int := 63900000000 * nsPerSecond

/-! ## C2: oversized writes are rejected without any state change -/

/-- C2: for every buffer `p` with `len(p) > l.max()`, `Write(p)` returns
`(0, err)` with the "write request size … exceed max file size" error, leaves
the logger state (file pointer, size, spawned tasks, file numbering) exactly
as it was, and touches no file — in particular it creates no file when none
existed before the call. -/
theorem write_oversized_rejected (s : Sys) (o : FSO) (plen : Int)
    (h : plen > s.max) :
    s.write o plen = ⟨s, 0, some .writeTooLarge, none⟩ := by
  simp [Sys.write, h]

/-- Witness for C2 at a concrete input: a 2 MiB buffer against a 1 MB
threshold with no open file. -/
theorem write_oversized_rejected_witness :
    (2097152 : Int) > (sysOfLogger ⟨"app.log", ⟨1, 1, 0, false, 0, false⟩⟩).max
    ∧ (sysOfLogger ⟨"app.log", ⟨1, 1, 0, false, 0, false⟩⟩).write oracleAllOk 2097152
      = ⟨sysOfLogger ⟨"app.log", ⟨1, 1, 0, false, 0, false⟩⟩, 0, some .writeTooLarge, none⟩ :=
  ⟨by decide,
   write_oversized_rejected (sysOfLogger ⟨"app.log", ⟨1, 1, 0, false, 0, false⟩⟩)
     oracleAllOk 2097152 (by decide)⟩

/-! ## C9: `Close` is idempotent -/

/-- C9: a second `Close` directly after a first one never returns an error
(whatever the underlying close outcomes); a `Close` when no file is open
returns nil and changes nothing; and when a file is open, the first `Close`
returns exactly the error of the underlying `file.Close()` and nils the
pointer — so two consecutive `Close` calls are both error-free whenever the
underlying close succeeds. -/
theorem Close_idempotent (o1 o2 : FSO) (s : Sys) :
    (((s.Close o1).1.Close o2)).2 = none
    ∧ (s.file = none → s.Close o1 = (s, none))
    ∧ (∀ i, s.file = some i →
        (s.Close o1).2 = (if o1.closeOk then none else some .closeFail)
        ∧ (s.Close o1).1.file = none) := by
  refine ⟨?_, ?_, ?_⟩
  · cases h : s.file <;> simp [Sys.Close, Sys.close, h]
  · intro h; simp [Sys.Close, Sys.close, h]
  · intro i h; simp [Sys.Close, Sys.close, h]

/-- Witness for C9 at a concrete state with an open file whose underlying
close succeeds: both consecutive `Close` calls return nil. -/
theorem Close_idempotent_witness :
    ((sysOpen1MB.Close oracleAllOk).1.Close oracleAllOk).2 = none
    ∧ (sysOpen1MB.Close oracleAllOk).2 = none :=
  ⟨(Close_idempotent oracleAllOk oracleAllOk sysOpen1MB).1,
   by
    have h := ((Close_idempotent oracleAllOk oracleAllOk sysOpen1MB).2.2 0 (by decide)).1
    simpa using h⟩

/-! ## C7: compression-level normalization in `New` -/

/-- Whenever the log directory can be established, `New` succeeds and returns
`newLogger`. -/
theorem New_eq_ok (filename : String) (opts : Options) (tempDir arg0 : String)
    (dirExists mkdirOk : Bool) (hdir : dirExists = true ∨ mkdirOk = true) :
    New filename opts tempDir arg0 dirExists mkdirOk
      = .ok (newLogger filename opts tempDir arg0) := by
  have hcond : (!dirExists && !mkdirOk) = false := by
    rcases hdir with h | h <;> simp [h]
  simp only [New, newLogger, hcond]
  rfl

/-- The compression level of the constructed logger is the normalized one. -/
theorem newLogger_level (filename : String) (opts : Options) (tempDir arg0 : String) :
    (newLogger filename opts tempDir arg0).RotationOption.CompressionLevel
      = normalizeLevel opts.CompressionLevel := by
  obtain ⟨S, P, R, C, L, T⟩ := opts
  simp only [newLogger]
  by_cases h1 : S = 0 <;> by_cases h2 : P = 0 <;> simp [h1, h2]

/-- The `Size` of the constructed logger: the configured value, or
`defaultMaxSize` when unset. -/
theorem newLogger_size (filename : String) (opts : Options) (tempDir arg0 : String) :
    (newLogger filename opts tempDir arg0).RotationOption.Size
      = (if opts.Size = 0 then defaultMaxSize else opts.Size) := by
  obtain ⟨S, P, R, C, L, T⟩ := opts
  simp only [newLogger]
  by_cases h1 : S = 0 <;> by_cases h2 : P = 0 <;> simp [h1, h2]

/-- C7: `New` never fails because of the compression level: provided the log
directory can be established, it returns a logger; a `CompressionLevel`
outside `{0, 1, 9}` is silently replaced by the no-compression default `0`,
while the values `0`, `1` and `9` are kept unchanged. -/
theorem New_normalizes_level (filename : String) (opts : Options)
    (tempDir arg0 : String) (dirExists mkdirOk : Bool)
    (hdir : dirExists = true ∨ mkdirOk = true) :
    ∃ l, New filename opts tempDir arg0 dirExists mkdirOk = .ok l
      ∧ (¬(opts.CompressionLevel = 0 ∨ opts.CompressionLevel = 1 ∨ opts.CompressionLevel = 9) →
          l.RotationOption.CompressionLevel = 0)
      ∧ ((opts.CompressionLevel = 0 ∨ opts.CompressionLevel = 1 ∨ opts.CompressionLevel = 9) →
          l.RotationOption.CompressionLevel = opts.CompressionLevel) := by
  refine ⟨newLogger filename opts tempDir arg0,
    New_eq_ok filename opts tempDir arg0 dirExists mkdirOk hdir, ?_, ?_⟩ <;>
    rw [newLogger_level] <;> intro h <;> simp [normalizeLevel, h]

/-- Witness for C7 at the test's concrete input (`TestNew`): level 100 is
normalized to 0, level 9 is kept. -/
theorem New_normalizes_level_witness :
    (∃ l, New "var/log/myapp.sample.log" ⟨100, 604800000000000, 30, true, 100, true⟩
        "/tmp" "app" true true = .ok l
      ∧ l.RotationOption.CompressionLevel = 0)
    ∧ (∃ l, New "var/log/myapp.sample.log" ⟨100, 604800000000000, 30, true, 9, true⟩
        "/tmp" "app" true true = .ok l
      ∧ l.RotationOption.CompressionLevel = 9) := by
  constructor
  · obtain ⟨l, h1, h2, h3⟩ := New_normalizes_level "var/log/myapp.sample.log"
      ⟨100, 604800000000000, 30, true, 100, true⟩ "/tmp" "app" true true (.inl rfl)
    exact ⟨l, h1, h2 (by decide)⟩
  · obtain ⟨l, h1, h2, h3⟩ := New_normalizes_level "var/log/myapp.sample.log"
      ⟨100, 604800000000000, 30, true, 9, true⟩ "/tmp" "app" true true (.inl rfl)
    exact ⟨l, h1, h3 (by decide)⟩

/-! ## C8: the default rotation threshold -/

/-- Counterexample to C8 as stated: constructing with `Size = 0` yields an
effective `Size` of 100 (the source's `defaultMaxSize`, documented in the
README as "The default Size is 100 megabyte"), so the effective rotation
threshold is 100 MB, not the claimed 10 MB. -/
theorem New_default_size_is_not_ten :
    New "app.log" ⟨0, 0, 0, false, 0, false⟩ "/tmp" "app" true true
      = .ok ⟨"app.log", ⟨100, defaultMaxPeriod, 0, false, 0, false⟩⟩
    ∧ ¬ (newLogger "app.log" ⟨0, 0, 0, false, 0, false⟩ "/tmp" "app").RotationOption.Size
        * megabyte = 10 * megabyte := by
  constructor
  · rfl
  · decide

/-- C8 (amended): with `Size = 0` the effective rotation threshold defaults to
`defaultMaxSize = 100` megabytes — `l.max()` evaluates to `100 * 1024 * 1024`
bytes. -/
theorem New_size_zero_defaults_to_100 (filename : String) (opts : Options)
    (tempDir arg0 : String) (dirExists mkdirOk : Bool)
    (hdir : dirExists = true ∨ mkdirOk = true) (hS : opts.Size = 0) :
    ∃ l, New filename opts tempDir arg0 dirExists mkdirOk = .ok l
      ∧ l.RotationOption.Size = 100
      ∧ (sysOfLogger l).max = 100 * 1024 * 1024 := by
  refine ⟨newLogger filename opts tempDir arg0,
    New_eq_ok filename opts tempDir arg0 dirExists mkdirOk hdir, ?_, ?_⟩
  · rw [newLogger_size, if_pos hS]; rfl
  · show (sysOfLogger (newLogger filename opts tempDir arg0)).sizeMB * megabyte = _
    show (newLogger filename opts tempDir arg0).RotationOption.Size * megabyte = _
    rw [newLogger_size, if_pos hS]; rfl

/-- Witness for the amended C8 at a concrete input. -/
theorem New_size_zero_defaults_to_100_witness :
    ∃ l, New "app.log" ⟨0, 3600, 0, false, 1, true⟩ "/tmp" "app" true true = .ok l
      ∧ l.RotationOption.Size = 100
      ∧ (sysOfLogger l).max = 100 * 1024 * 1024 :=
  New_size_zero_defaults_to_100 "app.log" ⟨0, 3600, 0, false, 1, true⟩ "/tmp" "app"
    true true (.inl rfl) (by decide)

/-! ## Policy preservation and operation specifications -/

/-- `PolicyExtends` is reflexive. -/
theorem policyExtends_refl (s : Sys) : PolicyExtends s s :=
  ⟨rfl, rfl, rfl, [], by simp, by simp⟩

/-- `PolicyExtends` is transitive. -/
theorem policyExtends_trans {s1 s2 s3 : Sys} (h12 : PolicyExtends s1 s2)
    (h23 : PolicyExtends s2 s3) : PolicyExtends s1 s3 := by
  obtain ⟨ha, hb, hc, t1, ht1, hm1⟩ := h12
  obtain ⟨ha', hb', hc', t2, ht2, hm2⟩ := h23
  refine ⟨ha'.trans ha, hb'.trans hb, hc'.trans hc, t1 ++ t2, ?_, ?_⟩
  · rw [ht2, ht1, List.append_assoc]
  · intro p hp
    rcases List.mem_append.mp hp with h | h
    · exact hm1 p h
    · rw [hm2 p h, hb, hc]

/-- `close` keeps the policy and spawns nothing. -/
theorem policyExtends_close (o : FSO) (s : Sys) : PolicyExtends s (s.close o).1 := by
  unfold Sys.close
  cases s.file
  · exact policyExtends_refl s
  · exact ⟨rfl, rfl, rfl, [], by simp, by simp⟩

/-- `openNewFile` keeps the policy; any spawn it performs carries the state's
own `Compress`/`CompressionLevel`. -/
theorem policyExtends_openNewFile (o : FSO) (s : Sys) :
    PolicyExtends s (s.openNewFile o).1 := by
  unfold Sys.openNewFile
  split
  · split
    · exact policyExtends_refl s
    · split
      · exact policyExtends_refl s
      · split
        · exact ⟨rfl, rfl, rfl, [(s.compress, s.level)], rfl, by simp⟩
        · exact ⟨rfl, rfl, rfl, [(s.compress, s.level)], rfl, by simp⟩
  · split
    · exact policyExtends_refl s
    · exact ⟨rfl, rfl, rfl, [], by simp, by simp⟩

/-- `openExistingOrNewFile` keeps the policy. -/
theorem policyExtends_openExistingOrNewFile (o : FSO) (s : Sys) :
    PolicyExtends s (s.openExistingOrNewFile o).1 := by
  unfold Sys.openExistingOrNewFile
  split
  · exact policyExtends_openNewFile o s
  · split
    · exact policyExtends_refl s
    · split
      · exact policyExtends_openNewFile o s
      · exact ⟨rfl, rfl, rfl, [], by simp, by simp⟩

/-- `rotate` keeps the policy. -/
theorem policyExtends_rotate (o : FSO) (s : Sys) :
    PolicyExtends s (s.rotate o).1 := by
  unfold Sys.rotate
  rcases h : s.close o with ⟨s1, e1⟩
  have h1 : PolicyExtends s s1 := by
    have := policyExtends_close o s
    rwa [h] at this
  cases e1
  · exact policyExtends_trans h1 (policyExtends_openNewFile o s1)
  · exact h1

/-- `writeStep` keeps the policy of its input state. -/
theorem policyExtends_writeStep (o : FSO) (r : Sys × Option GoErr) :
    PolicyExtends r.1 (writeStep o r).sys := by
  rcases r with ⟨s2, e2⟩
  cases e2
  · exact ⟨rfl, rfl, rfl, [], by simp [writeStep], by simp⟩
  · exact policyExtends_refl s2

/-- `writeOpened` keeps the policy of its input state. -/
theorem policyExtends_writeOpened (o : FSO) (plen : Int) (r : Sys × Option GoErr) :
    PolicyExtends r.1 (writeOpened o plen r).sys := by
  rcases r with ⟨s1, e1⟩
  cases e1
  · show PolicyExtends s1
      (writeStep o (if s1.size + plen > s1.max then s1.rotate o else (s1, none))).sys
    split
    · exact policyExtends_trans (policyExtends_rotate o s1) (policyExtends_writeStep o _)
    · exact policyExtends_writeStep o (s1, none)
  · exact policyExtends_refl s1

/-- `write` keeps the policy. -/
theorem policyExtends_write (o : FSO) (plen : Int) (s : Sys) :
    PolicyExtends s (s.write o plen).sys := by
  unfold Sys.write
  split
  · exact policyExtends_refl s
  · cases hf : s.file
    · simp only [hf]
      exact policyExtends_trans (policyExtends_openExistingOrNewFile o s)
        (policyExtends_writeOpened o plen _)
    · simp only [hf]
      exact policyExtends_writeOpened o plen (s, none)

/-- Any public operation keeps the policy. -/
theorem policyExtends_runOp (s : Sys) (op : LogOp) : PolicyExtends s (runOp s op) := by
  cases op with
  | writeOp o plen => exact policyExtends_write o plen s
  | rotateOp o => exact policyExtends_rotate o s
  | closeOp o => exact policyExtends_close o s

/-- Any sequence of public operations keeps the policy. -/
theorem policyExtends_runOps (s : Sys) (ops : List LogOp) :
    PolicyExtends s (runOps s ops) := by
  induction ops generalizing s with
  | nil => exact policyExtends_refl s
  | cons op rest ih =>
      exact policyExtends_trans (policyExtends_runOp s op) (ih (runOp s op))

/-- Behaviour of `close`: the file pointer is always nil afterwards, size and
numbering are untouched, and the call errs exactly when a file was open and
its underlying close failed. -/
theorem close_spec (o : FSO) (s : Sys) :
    (s.close o).1.file = none ∧ (s.close o).1.size = s.size
    ∧ (s.close o).1.nextId = s.nextId
    ∧ (s.close o).2 = (if s.file = none then none
        else if o.closeOk then none else some .closeFail) := by
  rcases h : s.file with _ | i <;> simp [Sys.close, h]

/-- Behaviour of `openNewFile`: on success the state holds a freshly numbered
file of size 0; on failure the file pointer, size and numbering are exactly as
before the call. -/
theorem openNewFile_spec (o : FSO) (s : Sys) :
    ((s.openNewFile o).2 = none →
      (s.openNewFile o).1.size = 0 ∧ (s.openNewFile o).1.file = some s.nextId
      ∧ (s.openNewFile o).1.nextId = s.nextId + 1)
    ∧ ((s.openNewFile o).2 ≠ none →
      (s.openNewFile o).1.file = s.file ∧ (s.openNewFile o).1.size = s.size
      ∧ (s.openNewFile o).1.nextId = s.nextId) := by
  unfold Sys.openNewFile
  split
  · split
    · simp
    · split
      · simp
      · split <;> simp
  · split <;> simp

/-- Behaviour of `openExistingOrNewFile`: on success the state holds a freshly
numbered file whose adopted size is either 0 (created new) or the stat size of
the existing file; on failure the file pointer, size and numbering are exactly
as before the call. -/
theorem openExistingOrNewFile_spec (o : FSO) (s : Sys) :
    ((s.openExistingOrNewFile o).2 = none →
      ((s.openExistingOrNewFile o).1.size = 0
        ∨ (s.openExistingOrNewFile o).1.size = o.existingSize)
      ∧ (s.openExistingOrNewFile o).1.file = some s.nextId
      ∧ (s.openExistingOrNewFile o).1.nextId = s.nextId + 1)
    ∧ ((s.openExistingOrNewFile o).2 ≠ none →
      (s.openExistingOrNewFile o).1.file = s.file
      ∧ (s.openExistingOrNewFile o).1.size = s.size
      ∧ (s.openExistingOrNewFile o).1.nextId = s.nextId) := by
  unfold Sys.openExistingOrNewFile
  split
  · have h := openNewFile_spec o s
    exact ⟨fun he => ⟨Or.inl (h.1 he).1, (h.1 he).2⟩, h.2⟩
  · split
    · simp
    · split
      · have h := openNewFile_spec o s
        exact ⟨fun he => ⟨Or.inl (h.1 he).1, (h.1 he).2⟩, h.2⟩
      · simp

/-- Behaviour of `rotate`: on success the state holds a freshly numbered file
of size 0; on any failure the file pointer is nil (the close happened first),
and the numbering is untouched. -/
theorem rotate_spec (o : FSO) (s : Sys) :
    ((s.rotate o).2 = none →
      (s.rotate o).1.size = 0 ∧ (s.rotate o).1.file = some s.nextId
      ∧ (s.rotate o).1.nextId = s.nextId + 1)
    ∧ ((s.rotate o).2 ≠ none →
      (s.rotate o).1.file = none ∧ (s.rotate o).1.nextId = s.nextId) := by
  unfold Sys.rotate
  rcases hc : s.close o with ⟨s1, e1⟩
  have hcs := close_spec o s
  rw [hc] at hcs
  obtain ⟨hcf, hcsz, hcn, hce⟩ := hcs
  cases e1 with
  | none =>
      have hns := openNewFile_spec o s1
      simp only []
      constructor
      · intro he
        obtain ⟨h1, h2, h3⟩ := hns.1 he
        exact ⟨h1, by rw [h2, hcn], by rw [h3, hcn]⟩
      · intro he
        obtain ⟨h1, h2, h3⟩ := hns.2 he
        exact ⟨by rw [h1, hcf], by rw [h3, hcn]⟩
  | some e =>
      simp only []
      exact ⟨fun he => by simp at he, fun _ => ⟨hcf, hcn⟩⟩

/-- A policy-preserving step preserves the computed size threshold. -/
theorem PolicyExtends.max_eq {s s' : Sys} (h : PolicyExtends s s') :
    s'.max = s.max := by
  unfold Sys.max
  rw [h.1]

/-- `execWrites` keeps the policy. -/
theorem policyExtends_execWrites (s : Sys) (steps : List (FSO × Int)) :
    PolicyExtends s (execWrites s steps) := by
  induction steps generalizing s with
  | nil => exact policyExtends_refl s
  | cons st rest ih =>
      exact policyExtends_trans (policyExtends_write st.1 st.2 s)
        (ih (s.write st.1 st.2).sys)

/-- `close` leaves a well-formed numbering (the pointer is nil). -/
theorem wf_close (o : FSO) (s : Sys) : (s.close o).1.wf := by
  intro i hi
  rw [(close_spec o s).1] at hi
  exact absurd hi (by simp)

/-- `openNewFile` preserves well-formed numbering. -/
theorem wf_openNewFile (o : FSO) (s : Sys) (h : s.wf) : (s.openNewFile o).1.wf := by
  have hs := openNewFile_spec o s
  cases he : (s.openNewFile o).2 with
  | none =>
      obtain ⟨_, h2, h3⟩ := hs.1 he
      intro i hi
      rw [h2] at hi
      injection hi with hh
      rw [h3]
      omega
  | some e =>
      obtain ⟨h1, _, h3⟩ := hs.2 (by simp [he])
      intro i hi
      rw [h1] at hi
      rw [h3]
      exact h i hi

/-- `openExistingOrNewFile` preserves well-formed numbering. -/
theorem wf_openExistingOrNewFile (o : FSO) (s : Sys) (h : s.wf) :
    (s.openExistingOrNewFile o).1.wf := by
  have hs := openExistingOrNewFile_spec o s
  cases he : (s.openExistingOrNewFile o).2 with
  | none =>
      obtain ⟨_, h2, h3⟩ := hs.1 he
      intro i hi
      rw [h2] at hi
      injection hi with hh
      rw [h3]
      omega
  | some e =>
      obtain ⟨h1, _, h3⟩ := hs.2 (by simp [he])
      intro i hi
      rw [h1] at hi
      rw [h3]
      exact h i hi

/-- A rotated state always has a well-formed numbering. -/
theorem wf_rotate (o : FSO) (s : Sys) : (s.rotate o).1.wf := by
  have hs := rotate_spec o s
  cases he : (s.rotate o).2 with
  | none =>
      obtain ⟨_, h2, h3⟩ := hs.1 he
      intro i hi
      rw [h2] at hi
      injection hi with hh
      rw [h3]
      omega
  | some e =>
      obtain ⟨h1, _⟩ := hs.2 (by simp [he])
      intro i hi
      rw [h1] at hi
      exact absurd hi (by simp)

/-- `write` preserves well-formed numbering. -/
theorem wf_write (o : FSO) (plen : Int) (s : Sys) (h : s.wf) :
    (s.write o plen).sys.wf := by
  have hstep : ∀ r : Sys × Option GoErr, r.1.wf → (writeStep o r).sys.wf := by
    rintro ⟨s2, e2⟩ h2
    cases e2
    · intro i hi
      exact h2 i hi
    · exact h2
  have hopened : ∀ r : Sys × Option GoErr, r.1.wf → (writeOpened o plen r).sys.wf := by
    rintro ⟨s1, e1⟩ h1
    cases e1
    · show ((writeStep o (if s1.size + plen > s1.max then s1.rotate o else (s1, none))).sys).wf
      split
      · exact hstep _ (wf_rotate o s1)
      · exact hstep (s1, none) h1
    · exact h1
  unfold Sys.write
  split
  · exact h
  · cases hf : s.file
    · simp only [hf]
      exact hopened _ (wf_openExistingOrNewFile o s h)
    · simp only [hf]
      exact hopened (s, none) h

/-- `execWrites` preserves well-formed numbering. -/
theorem wf_execWrites (s : Sys) (steps : List (FSO × Int)) (h : s.wf) :
    (execWrites s steps).wf := by
  induction steps generalizing s with
  | nil => exact h
  | cons st rest ih => exact ih (s.write st.1 st.2).sys (wf_write st.1 st.2 s h)

/-- Behaviour of steps 3–4 of `Write` on a successfully opened state: the
accounted size stays within the threshold, an overflowing write lands in the
freshly created file `s1.nextId`, and the write always targets some file. -/
theorem writeOpened_success_spec (o : FSO) (plen : Int) (s1 : Sys)
    (hv : o.validFor plen) (hp : ¬ plen > s1.max) (hf : s1.file ≠ none)
    (hsucc : (writeOpened o plen (s1, none)).err = none) :
    (writeOpened o plen (s1, none)).sys.size ≤ s1.max
    ∧ (s1.size + plen > s1.max →
        (writeOpened o plen (s1, none)).target = some s1.nextId)
    ∧ (writeOpened o plen (s1, none)).target ≠ none := by
  by_cases hc : s1.size + plen > s1.max
  · have heq0 : writeOpened o plen (s1, none) = writeStep o (s1.rotate o) := by
      show writeStep o (if s1.size + plen > s1.max then s1.rotate o else (s1, none)) = _
      rw [if_pos hc]
    rcases hr : s1.rotate o with ⟨s2, e2⟩
    have heq : writeOpened o plen (s1, none) = writeStep o (s2, e2) := by
      rw [heq0, hr]
    have hrs := rotate_spec o s1
    rw [hr] at hrs
    cases e2 with
    | some e =>
        rw [heq] at hsucc
        exact absurd hsucc (by simp [writeStep])
    | none =>
        obtain ⟨hsz, hfile, _⟩ := hrs.1 rfl
        rw [heq] at hsucc ⊢
        have hwe : o.writeErr = false := by
          by_contra hcon
          rw [Bool.not_eq_false] at hcon
          simp [writeStep, hcon] at hsucc
        have hn : o.writeN = plen := hv.2.2.1 hwe
        refine ⟨?_, ?_, ?_⟩
        · show s2.size + o.writeN ≤ s1.max
          rw [hsz, hn]
          omega
        · intro _
          show s2.file = some s1.nextId
          exact hfile
        · show s2.file ≠ none
          rw [hfile]
          simp
  · have heq : writeOpened o plen (s1, none) = writeStep o (s1, none) := by
      show writeStep o (if s1.size + plen > s1.max then s1.rotate o else (s1, none)) = _
      rw [if_neg hc]
    rw [heq] at hsucc ⊢
    refine ⟨?_, fun h => absurd h hc, ?_⟩
    · show s1.size + o.writeN ≤ s1.max
      have := hv.2.1
      omega
    · show s1.file ≠ none
      exact hf

/-- Behaviour of a successful `Write`: the accounted size stays within the
threshold, a write that would overflow an open file targets the freshly
created file `s.nextId`, and a successful write always targets some file. -/
theorem write_success_spec (o : FSO) (plen : Int) (s : Sys) (hv : o.validFor plen)
    (hsucc : (s.write o plen).err = none) :
    (s.write o plen).sys.size ≤ s.max
    ∧ (∀ fid, s.file = some fid → s.size + plen > s.max →
        (s.write o plen).target = some s.nextId)
    ∧ (s.write o plen).target ≠ none := by
  by_cases hp : plen > s.max
  · exfalso
    have : (s.write o plen).err = some .writeTooLarge := by
      unfold Sys.write
      rw [if_pos hp]
    rw [this] at hsucc
    exact absurd hsucc (by simp)
  · cases hf : s.file with
    | some fid =>
        have heq : s.write o plen = writeOpened o plen (s, none) := by
          unfold Sys.write
          rw [if_neg hp, hf]
        rw [heq] at hsucc ⊢
        have h := writeOpened_success_spec o plen s hv hp (by rw [hf]; simp) hsucc
        exact ⟨h.1, fun fid' _ hov => h.2.1 hov, h.2.2⟩
    | none =>
        have heq0 : s.write o plen = writeOpened o plen (s.openExistingOrNewFile o) := by
          unfold Sys.write
          rw [if_neg hp, hf]
        rcases hoe : s.openExistingOrNewFile o with ⟨s1, e1⟩
        have heq : s.write o plen = writeOpened o plen (s1, e1) := by rw [heq0, hoe]
        have hoes := openExistingOrNewFile_spec o s
        rw [hoe] at hoes
        cases e1 with
        | some e =>
            rw [heq] at hsucc
            exact absurd hsucc (by simp [writeOpened])
        | none =>
            obtain ⟨_, hfile, _⟩ := hoes.1 rfl
            have hpe : PolicyExtends s s1 := by
              have := policyExtends_openExistingOrNewFile o s
              rwa [hoe] at this
            have hmax : s1.max = s.max := hpe.max_eq
            rw [heq] at hsucc ⊢
            have h := writeOpened_success_spec o plen s1 hv (by rwa [hmax])
              (by rw [hfile]; simp) hsucc
            refine ⟨by rw [← hmax]; exact h.1, ?_, h.2.2⟩
            intro fid hfid
            exact absurd hfid (by simp)

/-! ## C1: the size invariant of the write path -/

/-- C1: along any sequence of `Write` calls whose buffers are each at most
`maxSizeBytes = Size * megabyte` long (and whose file-write outcomes respect
the `io.Writer` contract), immediately after any `Write` of the sequence
returns successfully the tracked size of the active file is at most
`maxSizeBytes`; moreover, whenever `l.size` plus the incoming buffer length
would exceed the maximum while a file is open, the triggering write lands in a
freshly created file — never in the file that was open when the overflow was
detected. -/
theorem write_size_invariant (s0 : Sys) (steps : List (FSO × Int)) (hwf : s0.wf)
    (hval : ∀ st ∈ steps, (st.1).validFor st.2 ∧ st.2 ≤ s0.max) :
    ∀ i (hi : i < steps.length),
      ((execWrites s0 (steps.take i)).write (steps.get ⟨i, hi⟩).1
          (steps.get ⟨i, hi⟩).2).err = none →
      ((execWrites s0 (steps.take i)).write (steps.get ⟨i, hi⟩).1
          (steps.get ⟨i, hi⟩).2).sys.size ≤ s0.max
      ∧ (∀ fid, (execWrites s0 (steps.take i)).file = some fid →
          (execWrites s0 (steps.take i)).size + (steps.get ⟨i, hi⟩).2 > s0.max →
          ((execWrites s0 (steps.take i)).write (steps.get ⟨i, hi⟩).1
              (steps.get ⟨i, hi⟩).2).target ≠ some fid
          ∧ ((execWrites s0 (steps.take i)).write (steps.get ⟨i, hi⟩).1
              (steps.get ⟨i, hi⟩).2).target ≠ none) := by
  intro i hi hsucc
  obtain ⟨hv, hlen⟩ := hval (steps.get ⟨i, hi⟩) (List.get_mem steps i hi)
  have hpe := policyExtends_execWrites s0 (steps.take i)
  have hmax : (execWrites s0 (steps.take i)).max = s0.max := hpe.max_eq
  have hw := write_success_spec (steps.get ⟨i, hi⟩).1 (steps.get ⟨i, hi⟩).2
    (execWrites s0 (steps.take i)) hv hsucc
  refine ⟨by rw [← hmax]; exact hw.1, ?_⟩
  intro fid hfid hov
  have htarget := hw.2.1 fid hfid (by rw [hmax]; exact hov)
  have hwfs : (execWrites s0 (steps.take i)).wf := wf_execWrites s0 _ hwf
  have hlt : fid < (execWrites s0 (steps.take i)).nextId := hwfs fid hfid
  constructor
  · rw [htarget]
    intro hcon
    injection hcon with hcon
    omega
  · exact hw.2.2

/-- Witness for C1 at a concrete input: a full-threshold write against an
open 1 MB file holding 100 bytes succeeds, leaves the tracked size at the
threshold, and lands in the fresh file 1, not in the previously open file 0. -/
theorem write_size_invariant_witness :
    (sysOpen1MB.write oracleRotateWrite 1048576).err = none
    ∧ (sysOpen1MB.write oracleRotateWrite 1048576).sys.size ≤ sysOpen1MB.max
    ∧ (sysOpen1MB.write oracleRotateWrite 1048576).target ≠ some 0
    ∧ (sysOpen1MB.write oracleRotateWrite 1048576).target ≠ none := by
  have hwf : sysOpen1MB.wf := by
    intro i hcon
    simp only [sysOpen1MB] at hcon
    injection hcon with hcon
    simp [sysOpen1MB]
    omega
  have hval : ∀ st ∈ [(oracleRotateWrite, (1048576 : Int))],
      (st.1).validFor st.2 ∧ st.2 ≤ sysOpen1MB.max := by
    intro st hst
    simp only [List.mem_singleton] at hst
    subst hst
    exact ⟨⟨by decide, by decide, fun _ => by decide, by decide⟩, by decide⟩
  have h := write_size_invariant sysOpen1MB [(oracleRotateWrite, 1048576)]
    hwf hval 0 (by decide)
  refine ⟨by decide, (h (by decide)).1, ?_, ?_⟩
  · exact ((h (by decide)).2 0 (by decide) (by decide)).1
  · exact ((h (by decide)).2 0 (by decide) (by decide)).2

/-! ## C4: failed rotations abort, surface the error, and leave no handle -/

/-- C4: any failing `rotate()` leaves the logger holding no open file handle
(`l.file` nil); in particular, when the underlying close succeeds, a failing
rename of the occupied active path surfaces the rename error and a failing
create surfaces the create error; and after any failed rotation the next
`Write` (of an acceptable length) reopens from scratch through
`openExistingOrNewFile`. -/
theorem rotate_failure_self_heals (o : FSO) (s : Sys) :
    ((s.rotate o).2 ≠ none → (s.rotate o).1.file = none)
    ∧ (o.closeOk = true → o.statActiveExists = true → o.statErr = false →
        o.renameOk = false → (s.rotate o).2 = some .renameFail)
    ∧ (o.closeOk = true → o.createOk = false →
        (o.statActiveExists = true → o.statErr = false →
          o.renameOk = true ∧ o.chownOk = true) →
        (s.rotate o).2 = some .createFail)
    ∧ (∀ o2 plen, (s.rotate o).2 ≠ none → ¬ plen > (s.rotate o).1.max →
        (s.rotate o).1.write o2 plen
          = writeOpened o2 plen ((s.rotate o).1.openExistingOrNewFile o2)) := by
  refine ⟨fun hne => ((rotate_spec o s).2 hne).1, ?_, ?_, ?_⟩
  · intro hclose hstat hstatErr hren
    rcases hc : s.close o with ⟨s1, e1⟩
    have he1 : e1 = none := by
      have h := (close_spec o s).2.2.2
      rw [hc] at h
      have h2 : e1 = if s.file = none then none
          else if o.closeOk = true then none else some GoErr.closeFail := h
      rw [h2, hclose]
      simp
    subst he1
    have heq : s.rotate o = s1.openNewFile o := by
      unfold Sys.rotate
      rw [hc]
    rw [heq]
    simp [Sys.openNewFile, hstat, hstatErr, hren]
  · intro hclose hcreate h3
    rcases hc : s.close o with ⟨s1, e1⟩
    have he1 : e1 = none := by
      have h := (close_spec o s).2.2.2
      rw [hc] at h
      have h2 : e1 = if s.file = none then none
          else if o.closeOk = true then none else some GoErr.closeFail := h
      rw [h2, hclose]
      simp
    subst he1
    have heq : s.rotate o = s1.openNewFile o := by
      unfold Sys.rotate
      rw [hc]
    rw [heq]
    by_cases hcond : (o.statActiveExists && !o.statErr) = true
    · rw [Bool.and_eq_true, Bool.not_eq_true'] at hcond
      obtain ⟨hr, hch⟩ := h3 hcond.1 hcond.2
      simp [Sys.openNewFile, hcond.1, hcond.2, hr, hch, hcreate]
    · simp [Sys.openNewFile, hcond, hcreate]
  · intro o2 plen hne hp
    have hfile : (s.rotate o).1.file = none := ((rotate_spec o s).2 hne).1
    unfold Sys.write
    rw [if_neg hp, hfile]

/-- Witness for C4 at a concrete input: against an open 1 MB logger whose
rename fails, `rotate` returns the rename error and nils the file pointer. -/
theorem rotate_failure_self_heals_witness :
    (sysOpen1MB.rotate oracleRenameFails).2 = some .renameFail
    ∧ (sysOpen1MB.rotate oracleRenameFails).1.file = none := by
  have h := rotate_failure_self_heals oracleRenameFails sysOpen1MB
  exact ⟨h.2.1 rfl rfl rfl rfl, h.1 (by decide)⟩

/-! ## C10: the compression level handed to gzip is always valid -/

/-- C10: every logger built by `New` carries a compression level in
`{0, 1, 9}`; such a level is a valid gzip level, so the
`gzip.NewWriterLevel` error branch of `compressLogFile` can never be taken
with it; and along any sequence of public operations on such a logger, every
`postRotation` task spawned is handed exactly that level. -/
theorem New_gzip_level_always_valid (filename : String) (opts : Options)
    (tempDir arg0 : String) (dirExists mkdirOk : Bool) (l : Logger)
    (h : New filename opts tempDir arg0 dirExists mkdirOk = .ok l) :
    (l.RotationOption.CompressionLevel = 0 ∨ l.RotationOption.CompressionLevel = 1
      ∨ l.RotationOption.CompressionLevel = 9)
    ∧ gzipLevelValid l.RotationOption.CompressionLevel = true
    ∧ (∀ o : CFSO, (compressLogFile l.RotationOption.CompressionLevel o).err
        ≠ some .gzipInvalidLevel)
    ∧ (∀ ops : List LogOp, ∀ p ∈ (runOps (sysOfLogger l) ops).spawned,
        p.2 = l.RotationOption.CompressionLevel) := by
  have hl : l = newLogger filename opts tempDir arg0 := by
    by_cases hcond : (!dirExists && !mkdirOk) = true
    · simp [New, hcond] at h
    · have hdir : dirExists = true ∨ mkdirOk = true := by
        revert hcond
        cases dirExists <;> cases mkdirOk <;> simp
      rw [New_eq_ok filename opts tempDir arg0 dirExists mkdirOk hdir] at h
      injection h with h
      exact h.symm
  have hmem : l.RotationOption.CompressionLevel = 0
      ∨ l.RotationOption.CompressionLevel = 1
      ∨ l.RotationOption.CompressionLevel = 9 := by
    rw [hl, newLogger_level]
    unfold normalizeLevel
    split
    · assumption
    · left
      rfl
  have hvalid : gzipLevelValid l.RotationOption.CompressionLevel = true := by
    rcases hmem with h9 | h9 | h9 <;> rw [h9] <;> rfl
  refine ⟨hmem, hvalid, ?_, ?_⟩
  · intro o
    unfold compressLogFile
    rw [hvalid]
    split
    · simp
    · split
      · simp
      · split
        · simp
        · split
          · simp
          · split
            · simp
            · simp only [Bool.not_true]
              split
              · simp at *
              · split
                · simp
                · split
                  · simp
                  · split
                    · simp
                    · split <;> simp
  · intro ops p hp
    obtain ⟨_, _, hlev, t, ht, hm⟩ := policyExtends_runOps (sysOfLogger l) ops
    rw [ht] at hp
    have hnil : (sysOfLogger l).spawned = [] := rfl
    rw [hnil, List.nil_append] at hp
    rw [hm p hp]
    rfl

/-- Witness for C10 at a concrete input: the logger built from the out-of-range
level 100 carries level 0, which gzip accepts. -/
theorem New_gzip_level_always_valid_witness :
    gzipLevelValid (newLogger "app.log" ⟨1, 1, 0, true, 100, false⟩ "/tmp" "app"
      ).RotationOption.CompressionLevel = true := by
  have h := New_gzip_level_always_valid "app.log" ⟨1, 1, 0, true, 100, false⟩
    "/tmp" "app" true true (newLogger "app.log" ⟨1, 1, 0, true, 100, false⟩ "/tmp" "app")
    (New_eq_ok "app.log" ⟨1, 1, 0, true, 100, false⟩ "/tmp" "app" true true (.inl rfl))
  exact h.2.1

/-! ## C3: compression failure does not clean up the partial `.gz` file -/

/-- C3 (code bug in `compressLogFile`): when `io.Copy` fails mid-compression,
the call errs and `postRotation` falls back to reporting the original
uncompressed backup path (which still exists) — but the partially-written
`.gz` destination file is left on disk, because the deferred cleanup that the
source's own comment says should "remove the opened compressed file" tests a
stale outer `err` variable and never fires; indeed the cleanup removal is dead
code on every path of `compressLogFile`, whatever the level and outcomes. -/
theorem compress_failure_leaves_partial_gz :
    (compressLogFile 9 cOracleCopyFails).err = some .copyFail
    ∧ (compressLogFile 9 cOracleCopyFails).dstExists = true
    ∧ (compressLogFile 9 cOracleCopyFails).srcExists = true
    ∧ (postRotation "app-2024-01-02T03-04-05.000.log" true 9 cOracleCopyFails).1
        = "app-2024-01-02T03-04-05.000.log"
    ∧ (∀ lvl : Int, ∀ o : CFSO, (compressLogFile lvl o).cleanupRemovedDst = false) := by
  refine ⟨rfl, rfl, rfl, rfl, ?_⟩
  intro lvl o
  unfold compressLogFile
  repeat' split
  all_goals rfl

/-! ## C5 and C6: the retention sweep's age comparison -/

/-- `wrap64` is the identity on the `int64` range. -/
theorem wrap64_eq_of_bounds (x : Int) (h1 : -(2 ^ 63) ≤ x) (h2 : x < 2 ^ 63) :
    wrap64 x = x := by
  unfold wrap64
  have h3 : (0 : Int) ≤ x + 2 ^ 63 := by omega
  have h4 : x + 2 ^ 63 < 2 ^ 64 := by omega
  rw [Int.emod_eq_of_lt h3 h4]
  omega

/-- For retention periods up to 100000 days the duration computation does not
overflow: the window is exactly `period` days in nanoseconds. -/
theorem retentionWindow_eq (period : Int) (h1 : 0 < period) (h2 : period ≤ 100000) :
    retentionWindow period = period * (86400 * nsPerSecond) := by
  unfold retentionWindow nsPerSecond
  rw [wrap64_eq_of_bounds period (by omega) (by omega)]
  rw [wrap64_eq_of_bounds (period * (3600 * 1000000000)) (by omega) (by omega)]
  rw [wrap64_eq_of_bounds (period * (3600 * 1000000000) * 24) (by omega) (by omega)]
  ring

/-- C5 (code bug in `cleanUpOldLogs`): a directory entry with the expected
prefix and suffix whose embedded timestamp fails to parse is *deleted*, not
left untouched: the discarded `time.Parse` error leaves the zero `time.Time`,
whose saturated age exceeds the 10-day retention window — and in general, an
unparseable timestamp is removed whenever the current time exceeds the
retention window itself (true of every realistic clock), for any retention
period up to 100000 days. -/
theorem sweep_deletes_unparseable_names :
    cleanupEntryRemoved (fun _ => none) "app.log".data "app".data ".log".data
      "app-NOTATIMESTAMP.log".data false nowNs 10 = true
    ∧ (∀ now period : Int, 0 < period → period ≤ 100000 →
        retentionWindow period < now →
        cleanupShouldRemove none now period = true) := by
  constructor
  · decide
  · intro now period h1 h2 h3
    rw [retentionWindow_eq period h1 h2] at h3
    unfold cleanupShouldRemove timeSub goZeroTime
    rw [retentionWindow_eq period h1 h2]
    simp only [Option.getD_none, decide_eq_true_eq, max_def, min_def]
    unfold nsPerSecond at h3 ⊢
    split_ifs <;> omega

/-- C6 (code bug in `cleanUpOldLogs`): the deletion decision is *not* a plain
comparison of the file's age against the retention period — the source shifts
the parsed timestamp by a fixed 19800 seconds (5 h 30 min) before comparing.
Concretely, a backup aged 10 days minus one hour with `RetentionPeriod = 10`
has age within the window (so the claim says it must survive), yet the sweep
removes it; and in general, for any inputs free of `int64` saturation the
sweep removes a file exactly when its age *plus 19800 seconds* exceeds the
retention window. -/
theorem sweep_age_comparison_has_fixed_offset :
    cleanupShouldRemove (some (nowNs - 860400 * nsPerSecond)) nowNs 10 = true
    ∧ ¬ (nowNs - (nowNs - 860400 * nsPerSecond) > retentionWindow 10)
    ∧ (∀ ts now period : Int, 0 < period → period ≤ 100000 →
        -(2 ^ 63) ≤ now - ts + 19800 * nsPerSecond →
        now - ts + 19800 * nsPerSecond < 2 ^ 63 →
        (cleanupShouldRemove (some ts) now period = true ↔
          now - ts + 19800 * nsPerSecond > period * (86400 * nsPerSecond))) := by
  refine ⟨by decide, by decide, ?_⟩
  intro ts now period h1 h2 hlo hhi
  unfold cleanupShouldRemove timeSub
  rw [retentionWindow_eq period h1 h2]
  simp only [Option.getD_some, decide_eq_true_eq, max_def, min_def]
  unfold nsPerSecond at hlo hhi ⊢
  split_ifs <;> omega
